import Mathlib

/-!
# Verification of the s4lt DBPF container engine

Shallow embedding of the core of the `s4lt` package engine
(`s4lt/core/{header,index,compression,resource,package,writer}.py`) and
proofs about it.  Byte strings are modelled as `List Nat` (each element a
byte value), fallible code returns `Except String`, and the stateful parts
(resource extraction cache, package mutation state, the filesystem seen by
the writer) are modelled by explicit state passing.
-/

namespace S4lt

/-! ## CompressionCodec: RefPack (`compression.py`) -/

/-- Auxiliary loop of `_copy_backref`: append `n` bytes read one at a time
from position `idx` of the growing output, so overlapping source and
destination ranges replicate as in the source. -/
def copyBackrefAux : Nat → List Nat → Nat → List Nat
  | 0, out, _ => out
  | n + 1, out, idx => copyBackrefAux n (out ++ [out.getD idx 0]) (idx + 1)

/-- `_copy_backref(output, offset, length)`: copy `length` bytes starting
`offset` bytes back from the end of `output`; an offset beyond the current
output length is a `CompressionError`. -/
def copy_backref (out : List Nat) (offset length : Nat) : Except String (List Nat) :=
  if offset > out.length then
    .error "Invalid backref offset"
  else
    .ok (copyBackrefAux length out (out.length - offset))

/-- The command-stream loop of `decompress_refpack`, with explicit fuel
(each iteration consumes at least one input byte, so `data.length + 1`
fuel is always enough).  `pos` is the read cursor, `out` the output so
far, `target` the uncompressed size to reach. -/
def refpackLoop (data : List Nat) (target : Nat) :
    Nat → Nat → List Nat → Except String (List Nat)
  | 0, _, out => .ok out
  | fuel + 1, pos, out =>
    if pos < data.length ∧ out.length < target then
      let cmd := data.getD pos 0
      let pos := pos + 1
      if cmd ≤ 0x7F then
        -- 0x00-0x7F: up to 3 literal bytes, then a short backref
        let litCount := (cmd >>> 5) &&& 0x03
        if pos + litCount > data.length then
          .error "Unexpected end in literal run"
        else
          let out := out ++ (data.drop pos).take litCount
          let pos := pos + litCount
          if data.length ≤ pos then
            .error "Unexpected end reading backref"
          else
            let byte2 := data.getD pos 0
            let offset := ((cmd &&& 0x1F) <<< 3) ||| ((byte2 >>> 5) &&& 0x07)
            let length := (byte2 &&& 0x1F) + 3
            match copy_backref out (offset + 1) length with
            | .error e => .error e
            | .ok out => refpackLoop data target fuel (pos + 1) out
      else if cmd ≤ 0xBF then
        -- 0x80-0xBF: short backref
        if data.length ≤ pos then
          .error "Unexpected end in short backref"
        else
          let byte2 := data.getD pos 0
          let offset := ((cmd &&& 0x03) <<< 8) ||| byte2
          let length := ((cmd >>> 2) &&& 0x07) + 3
          match copy_backref out (offset + 1) length with
          | .error e => .error e
          | .ok out => refpackLoop data target fuel (pos + 1) out
      else if cmd ≤ 0xDF then
        -- 0xC0-0xDF: medium backref
        if pos + 2 > data.length then
          .error "Unexpected end in medium backref"
        else
          let byte2 := data.getD pos 0
          let byte3 := data.getD (pos + 1) 0
          let offset := ((cmd &&& 0x03) <<< 12) ||| (byte2 <<< 4) ||| ((byte3 >>> 4) &&& 0x0F)
          let length := ((cmd >>> 2) &&& 0x0F) + 4
          match copy_backref out (offset + 1) length with
          | .error e => .error e
          | .ok out => refpackLoop data target fuel (pos + 2) out
      else if cmd ≤ 0xFB then
        -- 0xE0-0xFB: literal run of (cmd - 0xDF) bytes
        let litCount := cmd - 0xDF
        if pos + litCount > data.length then
          .error "Unexpected end in literal run"
        else
          refpackLoop data target fuel (pos + litCount) (out ++ (data.drop pos).take litCount)
      else
        -- 0xFC-0xFF: stop code with (cmd - 0xFC) trailing literals
        .ok (out ++ (data.drop pos).take (cmd - 0xFC))
    else
      .ok out

/-- `decompress_refpack(data, expected_size)`: check the 2-byte magic,
read the 3-byte big-endian embedded size (overridden by a nonzero caller
expectation), run the command loop, and check the final size when an
expectation was supplied. -/
def decompress_refpack (data : List Nat) (expectedSize : Nat) : Except String (List Nat) :=
  if data.length < 5 then
    .error "RefPack data too short for header"
  else if ¬(data.getD 0 0 = 0x10 ∧ data.getD 1 0 = 0xFB) then
    .error "Invalid RefPack header"
  else
    let embedded := ((data.getD 2 0) <<< 16) ||| ((data.getD 3 0) <<< 8) ||| data.getD 4 0
    let target := if expectedSize > 0 ∧ embedded ≠ expectedSize then expectedSize else embedded
    match refpackLoop data target (data.length + 1) 5 [] with
    | .error e => .error e
    | .ok result =>
      if expectedSize > 0 ∧ result.length ≠ expectedSize then
        .error "RefPack size mismatch"
      else
        .ok result

/-- The backreference (if any) decoded by the command byte at `pos`:
returns the 1-based offset (after the `+ 1` adjustment) together with the
number of literal bytes the command copies before the backreference, and
`none` when the command at `pos` is not a backreference command or its
operand bytes are missing.  The formulas are those of the three
backreference branches of `decompress_refpack`. -/
def backrefAt (data : List Nat) (pos : Nat) : Option (Nat × Nat) :=
  if pos < data.length then
    let cmd := data.getD pos 0
    if cmd ≤ 0x7F then
      let lit := (cmd >>> 5) &&& 0x03
      if pos + 1 + lit < data.length then
        let byte2 := data.getD (pos + 1 + lit) 0
        some (((((cmd &&& 0x1F) <<< 3) ||| ((byte2 >>> 5) &&& 0x07)) + 1), lit)
      else none
    else if cmd ≤ 0xBF then
      if pos + 1 < data.length then
        some (((((cmd &&& 0x03) <<< 8) ||| data.getD (pos + 1) 0) + 1), 0)
      else none
    else if cmd ≤ 0xDF then
      if pos + 2 < data.length then
        some (((((cmd &&& 0x03) <<< 12) ||| ((data.getD (pos + 1) 0) <<< 4)
          ||| (((data.getD (pos + 2) 0) >>> 4) &&& 0x0F)) + 1), 0)
      else none
    else none
  else none

/-! ## CompressionCodec: DEFLATE variant (`compression.py`)

The raw-DEFLATE encoder/decoder itself is the external `zlib` library, not
code of this repository; it is passed in as a function pair (`deflate`,
`inflate`).  The repository's own code is the 2-byte framing and the
expected-size check, embedded here. -/

/-- `compress_zlib(data)`: `zlib.compress(data, 9)[2:-4]` is exactly the raw
DEFLATE stream for `data` (the zlib header and Adler trailer stripped),
modelled by the external function `deflate`; the fixed 2-byte header
`0x78 0x9C` is prepended. -/
def compress_zlib (deflate : List Nat → List Nat) (data : List Nat) : List Nat :=
  [0x78, 0x9C] ++ deflate data

/-- `decompress_zlib(data, expected_size)`: drop the 2-byte header, run the
external raw-DEFLATE decoder (`zlib.decompress(·, -MAX_WBITS)`, modelled by
`inflate`), and check the expected size when one was supplied. -/
def decompress_zlib (inflate : List Nat → Except String (List Nat))
    (data : List Nat) (expectedSize : Nat) : Except String (List Nat) :=
  if data.length < 2 then
    .error "zlib data too short"
  else
    match inflate (data.drop 2) with
    | .error _ => .error "zlib decompression failed"
    | .ok result =>
      if expectedSize > 0 ∧ result.length ≠ expectedSize then
        .error "Size mismatch"
      else
        .ok result

/-! ## IndexCodec (`index.py`) -/

/-- A parsed DBPF index entry (`IndexEntry` dataclass). -/
structure IndexEntry where
  type_id : Nat
  group_id : Nat
  instance_id : Nat
  offset : Nat
  compressed_size : Nat
  uncompressed_size : Nat
  compression_type : Nat
deriving Repr, DecidableEq

/-- `COMPRESSION_NONE` -/
def COMPRESSION_NONE : Nat := 0x0000
/-- `COMPRESSION_ZLIB` -/
def COMPRESSION_ZLIB : Nat := 0x5A42
/-- `COMPRESSION_REFPACK` -/
def COMPRESSION_REFPACK : Nat := 0xFFFF
/-- `COMPRESSION_REFPACK_ALT` -/
def COMPRESSION_REFPACK_ALT : Nat := 0xFFFE

/-- `IndexEntry.is_compressed` -/
def IndexEntry.is_compressed (e : IndexEntry) : Bool :=
  e.compression_type ≠ COMPRESSION_NONE

/-- `_read_uint32(file)`: consume 4 bytes, little-endian; error on a short
read. -/
def read_uint32 : List Nat → Except String (Nat × List Nat)
  | b0 :: b1 :: b2 :: b3 :: rest =>
    .ok (b0 + b1 * 256 + b2 * 65536 + b3 * 16777216, rest)
  | _ => .error "Unexpected end of index data"

/-- One pass of the constant-field loop of `parse_index`: when the flag bit
is set, read a 4-byte constant (erroring on a short read), otherwise leave
the constant absent. -/
def readConst (flags bit : Nat) (rest : List Nat) :
    Except String (Option Nat × List Nat) :=
  if flags &&& (1 <<< bit) ≠ 0 then
    match read_uint32 rest with
    | .ok vr => .ok (some vr.1, vr.2)
    | .error _ => .error "Index too short: missing constant"
  else
    .ok (none, rest)

/-- `constants.get(name) or _read_uint32(file)`: a Python `or`, so the
per-entry read happens both when no constant was stored for the field and
when the stored constant equals `0` (which is falsy). -/
def constOrRead (c : Option Nat) (rest : List Nat) : Except String (Nat × List Nat) :=
  match c with
  | some v => if v = 0 then read_uint32 rest else .ok (v, rest)
  | none => read_uint32 rest

/-- The per-entry body of the `parse_index` loop. -/
def parseEntry (ct cg chi clo : Option Nat) (rest : List Nat) :
    Except String (IndexEntry × List Nat) := do
  let (type_id, rest) ← constOrRead ct rest
  let (group_id, rest) ← constOrRead cg rest
  let (instance_hi, rest) ← constOrRead chi rest
  let (instance_lo, rest) ← constOrRead clo rest
  let (offset, rest) ← read_uint32 rest
  let (file_size_raw, rest) ← read_uint32 rest
  let compressed_size := file_size_raw &&& 0x7FFFFFFF
  let (uncompressed_size, rest) ← read_uint32 rest
  match rest with
  | c0 :: c1 :: _ :: _ :: rest =>
    .ok (⟨type_id, group_id, (instance_hi <<< 32) ||| instance_lo, offset,
      compressed_size, uncompressed_size, c0 + c1 * 256⟩, rest)
  | _ => .error "Index too short at entry"

/-- The entry loop of `parse_index`, one record per remaining entry. -/
def parseEntries (ct cg chi clo : Option Nat) :
    Nat → List Nat → Except String (List IndexEntry)
  | 0, _ => .ok []
  | n + 1, rest => do
    let (e, rest) ← parseEntry ct cg chi clo rest
    let es ← parseEntries ct cg chi clo n rest
    .ok (e :: es)

/-- `parse_index(file, entry_count)`: an empty count returns an empty list
without reading anything; otherwise read the 4-byte flags word, the
constants selected by its low 4 bits in bit order, then `entry_count`
records. -/
def parse_index (data : List Nat) (entry_count : Nat) : Except String (List IndexEntry) :=
  if entry_count = 0 then
    .ok []
  else
    match data with
    | f0 :: f1 :: f2 :: f3 :: rest =>
      let flags := f0 + f1 * 256 + f2 * 65536 + f3 * 16777216
      (do
        let (ct, rest) ← readConst flags 0 rest
        let (cg, rest) ← readConst flags 1 rest
        let (chi, rest) ← readConst flags 2 rest
        let (clo, rest) ← readConst flags 3 rest
        parseEntries ct cg chi clo entry_count rest)
    | _ => .error "Index too short: missing flags"

/-! ## HeaderCodec (`header.py`, `writer._build_header`) -/

/-- `HEADER_SIZE` -/
def HEADER_SIZE : Nat := 96

/-- `MAGIC = b"DBPF"` -/
def MAGIC : List Nat := [0x44, 0x42, 0x50, 0x46]

/-- Parsed DBPF header (`DBPFHeader` dataclass). -/
structure DBPFHeader where
  magic : List Nat
  version_major : Nat
  version_minor : Nat
  entry_count : Nat
  index_position : Nat
  index_size : Nat
deriving Repr, DecidableEq

/-- Little-endian `u32` at byte offset `off` (`struct.unpack_from("<I", data, off)`). -/
def readLE32 (data : List Nat) (off : Nat) : Nat :=
  data.getD off 0 + data.getD (off + 1) 0 * 256
    + data.getD (off + 2) 0 * 65536 + data.getD (off + 3) 0 * 16777216

/-- Little-endian `u32` byte encoding (`struct.pack_into("<I", ...)`). -/
def le32 (n : Nat) : List Nat :=
  [n % 256, n / 256 % 256, n / 65536 % 256, n / 16777216 % 256]

/-- `parse_header(file)`: read 96 bytes (invalid-magic on a short read),
check the magic and major version, then pull the three index fields from
their fixed offsets. -/
def parse_header (data : List Nat) : Except String DBPFHeader :=
  let hdr := data.take HEADER_SIZE
  if hdr.length < HEADER_SIZE then
    .error "File too small to be valid DBPF"
  else if hdr.take 4 ≠ MAGIC then
    .error "Invalid magic bytes"
  else if readLE32 hdr 4 ≠ 2 then
    .error "Unsupported DBPF version"
  else
    .ok ⟨hdr.take 4, readLE32 hdr 4, readLE32 hdr 8,
      readLE32 hdr 36, readLE32 hdr 64, readLE32 hdr 44⟩

/-- `writer._build_header(entry_count, index_position, index_size)`: a
zero-filled 96-byte block with the magic, version `(2, 1)` and the three
fields packed at their fixed offsets. -/
def build_header (entry_count index_position index_size : Nat) : List Nat :=
  MAGIC ++ le32 2 ++ le32 1 ++ List.replicate 24 0 ++ le32 entry_count
    ++ List.replicate 4 0 ++ le32 index_size ++ List.replicate 16 0
    ++ le32 index_position ++ List.replicate 28 0

/-! ## CompressionCodec dispatch (`compression.decompress`) -/

/-- `decompress(data, compression_type, expected_size)`: dispatch on the
compression code; the DEFLATE variant's raw decoder is the external
`inflate`. -/
def decompress (inflate : List Nat → Except String (List Nat))
    (data : List Nat) (compression_type expectedSize : Nat) : Except String (List Nat) :=
  if compression_type = COMPRESSION_NONE then
    .ok data
  else if compression_type = COMPRESSION_ZLIB then
    decompress_zlib inflate data expectedSize
  else if compression_type = COMPRESSION_REFPACK ∨ compression_type = COMPRESSION_REFPACK_ALT then
    decompress_refpack data expectedSize
  else
    .error "Unknown compression type"

/-! ## ResourceHandle (`resource.py`) -/

/-- One `Resource` handle: its index entry plus the mutable extract cache
(`_cached_data`).  The shared byte source is passed to `extract`
explicitly. -/
structure Resource where
  entry : IndexEntry
  cached_data : Option (List Nat)
deriving Repr, DecidableEq

/-- `Resource.extract()`: return the cached buffer when one is set;
otherwise seek the shared byte source to `offset`, read `compressed_size`
bytes, decompress them with the entry's `compression_type` and
`uncompressed_size` as the expected-size hint, cache the result and return
it.  The updated handle is returned alongside the bytes. -/
def Resource.extract (inflate : List Nat → Except String (List Nat))
    (file : List Nat) (r : Resource) : Except String (List Nat × Resource) :=
  match r.cached_data with
  | some b => .ok (b, r)
  | none =>
    match decompress inflate ((file.drop r.entry.offset).take r.entry.compressed_size)
        r.entry.compression_type r.entry.uncompressed_size with
    | .error e => .error e
    | .ok b => .ok (b, { r with cached_data := some b })

/-! ## Writer (`writer.py`) -/

/-- A resource record handed to the writer (the `resources` dicts with
keys `type_id`, `group_id`, `instance_id`, `data`, `compress`); also the
shape of a `Package`'s pending resources. -/
structure WriterResource where
  type_id : Nat
  group_id : Nat
  instance_id : Nat
  data : List Nat
  compress : Bool
deriving Repr, DecidableEq

/-- The per-resource encoding step of `write_package`: DEFLATE-compress
(via the external `deflate`) and record `COMPRESSION_ZLIB` when the flag is
set, else store the raw bytes with `COMPRESSION_NONE`. -/
def encodeResource (deflate : List Nat → List Nat) (r : WriterResource) : List Nat × Nat :=
  if r.compress then
    (compress_zlib deflate r.data, COMPRESSION_ZLIB)
  else
    (r.data, COMPRESSION_NONE)

/-- The offset-computing loop of `write_package`, threading
`current_offset`: returns the index entries and encoded data chunks, and
the final offset (which becomes `index_position`). -/
def writeLoop (deflate : List Nat → List Nat) :
    List WriterResource → Nat → (List IndexEntry × List (List Nat)) × Nat
  | [], currentOffset => (([], []), currentOffset)
  | r :: rs, currentOffset =>
    let c := encodeResource deflate r
    let rest := writeLoop deflate rs (currentOffset + c.1.length)
    ((⟨r.type_id, r.group_id, r.instance_id, currentOffset, c.1.length,
        r.data.length, c.2⟩ :: rest.1.1, c.1 :: rest.1.2), rest.2)

/-- Little-endian `u16` byte encoding (`struct.pack("<H", ...)`). -/
def le16 (n : Nat) : List Nat :=
  [n % 256, n / 256 % 256]

/-- One record of `writer._build_index`. -/
def indexEntryBytes (e : IndexEntry) : List Nat :=
  le32 e.type_id ++ le32 e.group_id ++ le32 ((e.instance_id >>> 32) &&& 0xFFFFFFFF)
    ++ le32 (e.instance_id &&& 0xFFFFFFFF) ++ le32 e.offset ++ le32 e.compressed_size
    ++ le32 e.uncompressed_size ++ le16 e.compression_type ++ le16 0

/-- `writer._build_index(entries)`: flags word 0 (no constant fields), then
every field per entry. -/
def build_index (entries : List IndexEntry) : List Nat :=
  le32 0 ++ (entries.map indexEntryBytes).flatten

/-- The byte image `write_package` writes to the destination: header, the
encoded resource chunks in order, then the index table. -/
def write_package_bytes (deflate : List Nat → List Nat)
    (resources : List WriterResource) : List Nat :=
  let lp := writeLoop deflate resources HEADER_SIZE
  let index_data := build_index lp.1.1
  build_header lp.1.1.length lp.2 index_data.length ++ lp.1.2.flatten ++ index_data

/-- The `.bak` sibling of a destination path
(`path.with_suffix(path.suffix + ".bak")`). -/
def bakPath (path : String) : String := path ++ ".bak"

/-- `write_package(path, resources, create_backup)` as a transformer of the
filesystem (contents by path): when asked for a backup and the destination
exists and no `.bak` sibling exists yet, first copy the destination to the
`.bak` sibling; then open-truncate-write the assembled bytes to the
destination. -/
def write_package (deflate : List Nat → List Nat) (fs : String → Option (List Nat))
    (path : String) (resources : List WriterResource) (createBackup : Bool) :
    String → Option (List Nat) :=
  let fs1 : String → Option (List Nat) :=
    if createBackup ∧ (fs path).isSome ∧ (fs (bakPath path)).isNone then
      fun q => if q = bakPath path then fs path else fs q
    else
      fs
  fun q => if q = path then some (write_package_bytes deflate resources) else fs1 q

/-! ## PackageContainer (`package.py`) -/

/-- The mutable state of a `Package`: the handles read at open time, the
pending additions, the removed TGIs (a set, modelled by membership in a
list) and the modified flag. -/
structure Package where
  resources : List Resource
  pending_resources : List WriterResource
  removed_tgis : List (Nat × Nat × Nat)
  modified : Bool
deriving Repr, DecidableEq

/-- The TGI key of a handle, as `save()` computes it. -/
def resTGI (r : Resource) : Nat × Nat × Nat :=
  (r.entry.type_id, r.entry.group_id, r.entry.instance_id)

/-- `Package.add_resource`: append to the pending list, mark modified. -/
def add_resource (pkg : Package) (t g i : Nat) (data : List Nat) (compress : Bool) : Package :=
  { pkg with
    pending_resources := pkg.pending_resources ++ [⟨t, g, i, data, compress⟩]
    modified := true }

/-- `Package.remove_resource`: add the TGI to the removed set, mark
modified. -/
def remove_resource (pkg : Package) (t g i : Nat) : Package :=
  { pkg with removed_tgis := (t, g, i) :: pkg.removed_tgis, modified := true }

/-- `Package.update_resource`: remove then add the same TGI (the add uses
the default `compress=True`). -/
def update_resource (pkg : Package) (t g i : Nat) (data : List Nat) : Package :=
  add_resource (remove_resource pkg t g i) t g i data true

/-- The materialization loop of `Package.save`: walk the committed handles
in order; a handle whose TGI is in the removed set is skipped (and not
extracted); every other handle is extracted (updating its cache) and
yields a writer record with its bytes and its original compression flag.
Returns the writer records together with the updated handle list; an
extraction failure propagates with the handle states at the moment of the
raise. -/
def collectSurviving (inflate : List Nat → Except String (List Nat)) (file : List Nat)
    (removed : List (Nat × Nat × Nat)) :
    List Resource → Except (String × List Resource) (List WriterResource × List Resource)
  | [] => .ok ([], [])
  | r :: rs =>
    if resTGI r ∈ removed then
      match collectSurviving inflate file removed rs with
      | .error er => .error (er.1, r :: er.2)
      | .ok p => .ok (p.1, r :: p.2)
    else
      match Resource.extract inflate file r with
      | .error e => .error (e, r :: rs)
      | .ok br =>
        match collectSurviving inflate file removed rs with
        | .error er => .error (er.1, br.2 :: er.2)
        | .ok p => .ok (⟨r.entry.type_id, r.entry.group_id, r.entry.instance_id,
            br.1, r.entry.is_compressed⟩ :: p.1, br.2 :: p.2)

/-- The `all_resources` list `save()` builds and hands to `write_package`:
the materialized surviving originals followed by the pending resources in
the order added. -/
def Package.saveList (inflate : List Nat → Except String (List Nat)) (file : List Nat)
    (pkg : Package) : Except (String × List Resource) (List WriterResource × List Resource) :=
  (collectSurviving inflate file pkg.removed_tgis pkg.resources).map
    (fun p => (p.1 ++ pkg.pending_resources, p.2))

/-- `Package.save`: materialize the surviving originals (updating their
extract caches), append the pending resources, call the writer with
`create_backup = modified`, and only on success clear the pending list,
the removed set and the modified flag.  The disk write's outcome is
abstracted as `writeResult` (it can raise, e.g. on I/O failure); the
result is the package state after the call paired with the propagated
error, if any. -/
def Package.save (inflate : List Nat → Except String (List Nat)) (file : List Nat)
    (writeResult : List WriterResource → Bool → Except String Unit) (pkg : Package) :
    Package × Option String :=
  match Package.saveList inflate file pkg with
  | .error er => ({ pkg with resources := er.2 }, some er.1)
  | .ok p =>
    match writeResult p.1 pkg.modified with
    | .error e => ({ pkg with resources := p.2 }, some e)
    | .ok _ => (Package.mk p.2 [] [] false, none)

/-- A recorded mutation of a `Package` (§4.5's add/remove/update calls). -/
inductive PkgOp
  | add (t g i : Nat) (data : List Nat) (compress : Bool)
  | remove (t g i : Nat)
  | update (t g i : Nat) (data : List Nat)
deriving Repr, DecidableEq

/-- Apply one mutation call. -/
def applyOp (pkg : Package) : PkgOp → Package
  | .add t g i d c => add_resource pkg t g i d c
  | .remove t g i => remove_resource pkg t g i
  | .update t g i d => update_resource pkg t g i d

/-- Apply a session's mutation calls in order. -/
def applyOps (pkg : Package) (ops : List PkgOp) : Package :=
  ops.foldl applyOp pkg

/-- The pending records a mutation call contributes, in call order. -/
def opAdds : PkgOp → List WriterResource
  | .add t g i d c => [⟨t, g, i, d, c⟩]
  | .remove _ _ _ => []
  | .update t g i d => [⟨t, g, i, d, true⟩]

/-- The removed TGIs a mutation call contributes. -/
def opRemoves : PkgOp → List (Nat × Nat × Nat)
  | .add _ _ _ _ _ => []
  | .remove t g i => [(t, g, i)]
  | .update t g i _ => [(t, g, i)]

/-! ## Theorems -/

/-- Helper: `_copy_backref` fails whenever the offset exceeds the current
output length. -/
theorem copy_backref_big (out : List Nat) (offset length : Nat) (h : out.length < offset) :
    copy_backref out offset length = .error "Invalid backref offset" := by
  unfold copy_backref
  rw [if_pos h]

/-- Claim C1 (code bug).  The spec says a constant field selected by an
index-flags bit holds for any constant value, including 0, with no
per-entry bytes consumed for that field.  The code computes each field as
`constants.get(name) or _read_uint32(file)`, and Python's `or` treats a
stored constant `0` like an absent one.  First conjunct: with flags = 1
(type_id constant) and stored constant 0, a 40-byte index whose per-entry
record begins with an extra value 7 parses to an entry with `type_id = 7`,
not the constant 0.  Second conjunct: the 36-byte stream that conforms to
the spec's layout (constant stored once, 28 bytes per entry) is rejected
as truncated.  Third conjunct: a nonzero constant 9 behaves as specified,
isolating the bug to constants equal to 0. -/
theorem index_constant_zero_bug :
    parse_index ([1, 0, 0, 0] ++ [0, 0, 0, 0] ++ [7, 0, 0, 0] ++ [2, 0, 0, 0] ++ [0, 0, 0, 0]
        ++ [3, 0, 0, 0] ++ [96, 0, 0, 0] ++ [5, 0, 0, 0] ++ [6, 0, 0, 0] ++ [0, 0, 0, 0]) 1
      = .ok [⟨7, 2, 3, 96, 5, 6, 0⟩]
    ∧ parse_index ([1, 0, 0, 0] ++ [0, 0, 0, 0] ++ [2, 0, 0, 0] ++ [0, 0, 0, 0] ++ [3, 0, 0, 0]
        ++ [96, 0, 0, 0] ++ [5, 0, 0, 0] ++ [6, 0, 0, 0] ++ [0, 0, 0, 0]) 1
      = .error "Index too short at entry"
    ∧ parse_index ([1, 0, 0, 0] ++ [9, 0, 0, 0] ++ [2, 0, 0, 0] ++ [0, 0, 0, 0] ++ [3, 0, 0, 0]
        ++ [96, 0, 0, 0] ++ [5, 0, 0, 0] ++ [6, 0, 0, 0] ++ [0, 0, 0, 0]) 1
      = .ok [⟨9, 2, 3, 96, 5, 6, 0⟩] :=
  ⟨rfl, rfl, rfl⟩

/-- Claim C2: the RefPack stream `10 FB | 00 00 08 | E3 "ABCD" | 84 03 | FC`
(magic, big-endian size 8, literal run of 4, backreference with decoded
offset 4 and length 4, stop) decompresses to `b"ABCDABCD"`, both with the
caller-supplied expected size 8 and with no expectation. -/
theorem refpack_backref_vector :
    decompress_refpack [0x10, 0xFB, 0x00, 0x00, 0x08, 0xE3, 65, 66, 67, 68, 0x84, 0x03, 0xFC] 8
      = .ok [65, 66, 67, 68, 65, 66, 67, 68]
    ∧ decompress_refpack [0x10, 0xFB, 0x00, 0x00, 0x08, 0xE3, 65, 66, 67, 68, 0x84, 0x03, 0xFC] 0
      = .ok [65, 66, 67, 68, 65, 66, 67, 68] :=
  ⟨rfl, rfl⟩

/-- Claim C3: for every byte string `x`, `decompress_zlib(compress_zlib(x))`
returns `x`.  The external raw-DEFLATE codec is abstracted as a pair
(`deflate`, `inflate`) satisfying the library's inversion law; the
repository's own framing (the fixed 2-byte prefix added by `compress_zlib`
and stripped by `decompress_zlib`) preserves the round-trip. -/
theorem zlib_roundtrip (deflate : List Nat → List Nat)
    (inflate : List Nat → Except String (List Nat))
    (hinv : ∀ y, inflate (deflate y) = .ok y) (x : List Nat) :
    decompress_zlib inflate (compress_zlib deflate x) 0 = .ok x := by
  unfold decompress_zlib compress_zlib
  rw [if_neg (by simp)]
  rw [List.drop_left' (show ([0x78, 0x9C] : List Nat).length = 2 from rfl), hinv x]
  simp

/-- Witness for C3 at `deflate = id`, `inflate = Except.ok`, `x = [1, 2, 3]`. -/
theorem zlib_roundtrip_witness :
    decompress_zlib (fun l => Except.ok l) (compress_zlib (fun l => l) [1, 2, 3]) 0
      = .ok [1, 2, 3] :=
  zlib_roundtrip (fun l => l) (fun l => Except.ok l) (fun _ => rfl) [1, 2, 3]

/-- Claim C4: at any point of RefPack decoding (any cursor `pos`, any output
`out` with room left towards the target), if the command at `pos` decodes a
backreference whose 1-based offset exceeds the output length at the moment
of the copy (`out` plus the command's own leading literals), the decode
loop fails with the invalid-backreference `CompressionError`. -/
theorem refpack_bad_backref_fails (data : List Nat) (target fuel pos : Nat) (out : List Nat)
    (o lit : Nat)
    (hbr : backrefAt data pos = some (o, lit))
    (hroom : out.length < target)
    (hbad : out.length + lit < o) :
    refpackLoop data target (fuel + 1) pos out = .error "Invalid backref offset" := by
  unfold backrefAt at hbr
  by_cases hp : pos < data.length
  · rw [if_pos hp] at hbr
    simp only [refpackLoop]
    rw [if_pos ⟨hp, hroom⟩]
    by_cases h1 : data.getD pos 0 ≤ 0x7F
    · rw [if_pos h1] at hbr ⊢
      by_cases h1a : pos + 1 + ((data.getD pos 0 >>> 5) &&& 0x03) < data.length
      · rw [if_pos h1a] at hbr
        simp only [Option.some.injEq, Prod.mk.injEq] at hbr
        obtain ⟨rfl, rfl⟩ := hbr
        rw [if_neg (by omega), if_neg (by omega), copy_backref_big]
        simp only [List.length_append, List.length_take, List.length_drop]
        omega
      · rw [if_neg h1a] at hbr; exact absurd hbr (by simp)
    · rw [if_neg h1] at hbr ⊢
      by_cases h2 : data.getD pos 0 ≤ 0xBF
      · rw [if_pos h2] at hbr ⊢
        by_cases h2a : pos + 1 < data.length
        · rw [if_pos h2a] at hbr
          simp only [Option.some.injEq, Prod.mk.injEq] at hbr
          obtain ⟨rfl, rfl⟩ := hbr
          rw [if_neg (by omega), copy_backref_big]
          omega
        · rw [if_neg h2a] at hbr; exact absurd hbr (by simp)
      · rw [if_neg h2] at hbr ⊢
        by_cases h3 : data.getD pos 0 ≤ 0xDF
        · rw [if_pos h3] at hbr ⊢
          by_cases h3a : pos + 2 < data.length
          · rw [if_pos h3a] at hbr
            simp only [Option.some.injEq, Prod.mk.injEq] at hbr
            obtain ⟨rfl, rfl⟩ := hbr
            rw [if_neg (by omega), show pos + 1 + 1 = pos + 2 from by omega,
              copy_backref_big]
            omega
          · rw [if_neg h3a] at hbr; exact absurd hbr (by simp)
        · rw [if_neg h3] at hbr; exact absurd hbr (by simp)
  · rw [if_neg hp] at hbr; exact absurd hbr (by simp)

/-- Witness for C4: the stream `80 00` at cursor 0 with empty output decodes
a backreference with offset 1 into an empty output, and the loop fails. -/
theorem refpack_bad_backref_fails_witness :
    backrefAt [0x80, 0x00] 0 = some (1, 0)
    ∧ refpackLoop [0x80, 0x00] 1 1 0 [] = .error "Invalid backref offset" :=
  ⟨rfl, refpack_bad_backref_fails [0x80, 0x00] 1 0 0 [] 1 0 rfl (by decide) (by decide)⟩

/-- Claim C9: for all `u32` values `n`, `pos`, `size`, parsing the 96-byte
header built by `_build_header(n, pos, size)` succeeds and recovers
`entry_count = n`, `index_position = pos`, `index_size = size` and version
`(2, 1)`. -/
theorem header_roundtrip (n p s : Nat)
    (hn : n < 2 ^ 32) (hp : p < 2 ^ 32) (hs : s < 2 ^ 32) :
    parse_header (build_header n p s) = .ok ⟨MAGIC, 2, 1, n, p, s⟩ := by
  have hlen : (build_header n p s).length = 96 := by
    simp [build_header, le32, MAGIC]
  have htake : (build_header n p s).take HEADER_SIZE = build_header n p s := by
    rw [show HEADER_SIZE = 96 from rfl, ← hlen, List.take_length]
  have hmagic : (build_header n p s).take 4 = MAGIC := by
    rw [build_header]
    simp only [List.append_assoc]
    rw [List.take_left' (show (MAGIC : List Nat).length = 4 from rfl)]
  have hv : readLE32 (build_header n p s) 4 = 2 := by
    simp [readLE32, build_header, le32, MAGIC, List.getD_append, List.getD_append_right]
  have hv1 : readLE32 (build_header n p s) 8 = 1 := by
    simp [readLE32, build_header, le32, MAGIC, List.getD_append, List.getD_append_right]
  have hn' : readLE32 (build_header n p s) 36 = n := by
    simp [readLE32, build_header, le32, MAGIC, List.getD_append, List.getD_append_right]
    omega
  have hs' : readLE32 (build_header n p s) 44 = s := by
    simp [readLE32, build_header, le32, MAGIC, List.getD_append, List.getD_append_right]
    omega
  have hp' : readLE32 (build_header n p s) 64 = p := by
    simp [readLE32, build_header, le32, MAGIC, List.getD_append, List.getD_append_right]
    omega
  unfold parse_header
  simp only [htake, hmagic, hv, hv1, hn', hs', hp', hlen]
  norm_num [HEADER_SIZE]

/-- Witness for C9 at `n = 3`, `pos = 100`, `size = 52`. -/
theorem header_roundtrip_witness :
    (3 : Nat) < 2 ^ 32 ∧ parse_header (build_header 3 100 52) = .ok ⟨MAGIC, 2, 1, 3, 100, 52⟩ :=
  ⟨by norm_num, header_roundtrip 3 100 52 (by norm_num) (by norm_num) (by norm_num)⟩

/-- Claim C8: on a first `extract()` (no cache) the handle reads
`compressed_size` bytes of the byte source at `offset` and decompresses
them with the entry's compression type and `uncompressed_size` hint,
caching the result; any later `extract()` returns the first call's bytes
and state without consulting the byte source at all (the second conjunct
holds for an arbitrary, unrelated byte source `fileB`). -/
theorem extract_cached (inflate : List Nat → Except String (List Nat))
    (file fileB : List Nat) (r r' : Resource) (b : List Nat) :
    (r.cached_data = none →
      Resource.extract inflate file r
        = (decompress inflate ((file.drop r.entry.offset).take r.entry.compressed_size)
            r.entry.compression_type r.entry.uncompressed_size).map
            (fun d => (d, { r with cached_data := some d })))
    ∧ (Resource.extract inflate file r = .ok (b, r') →
        Resource.extract inflate fileB r' = .ok (b, r')) := by
  constructor
  · intro hc
    unfold Resource.extract
    rw [hc]
    cases hd : decompress inflate ((file.drop r.entry.offset).take r.entry.compressed_size)
        r.entry.compression_type r.entry.uncompressed_size <;> simp [Except.map]
  · intro hx
    unfold Resource.extract at hx ⊢
    cases hc : r.cached_data with
    | some c =>
      rw [hc] at hx
      obtain ⟨rfl, rfl⟩ : c = b ∧ r = r' := by
        cases hx
        exact ⟨rfl, rfl⟩
      rw [hc]
    | none =>
      rw [hc] at hx
      cases hd : decompress inflate ((file.drop r.entry.offset).take r.entry.compressed_size)
          r.entry.compression_type r.entry.uncompressed_size with
      | error e => rw [hd] at hx; cases hx
      | ok d =>
        rw [hd] at hx
        obtain ⟨rfl, rfl⟩ : d = b ∧ ({ r with cached_data := some d } : Resource) = r' := by
          cases hx
          exact ⟨rfl, rfl⟩
        rfl

/-- Witness for C8: a stored (compression `NONE`) 2-byte resource is read
and cached on the first call, and the cached handle answers from an empty
byte source. -/
theorem extract_cached_witness :
    Resource.extract (fun l => Except.ok l) [5, 6] ⟨⟨1, 2, 3, 0, 2, 2, 0⟩, none⟩
        = (decompress (fun l => Except.ok l) [5, 6] 0 2).map
            (fun d => (d, ⟨⟨1, 2, 3, 0, 2, 2, 0⟩, some d⟩))
    ∧ Resource.extract (fun l => Except.ok l) [] ⟨⟨1, 2, 3, 0, 2, 2, 0⟩, some [5, 6]⟩
        = .ok ([5, 6], ⟨⟨1, 2, 3, 0, 2, 2, 0⟩, some [5, 6]⟩) :=
  ⟨(extract_cached (fun l => Except.ok l) [5, 6] [] ⟨⟨1, 2, 3, 0, 2, 2, 0⟩, none⟩
      ⟨⟨1, 2, 3, 0, 2, 2, 0⟩, some [5, 6]⟩ [5, 6]).1 rfl,
   (extract_cached (fun l => Except.ok l) [5, 6] [] ⟨⟨1, 2, 3, 0, 2, 2, 0⟩, none⟩
      ⟨⟨1, 2, 3, 0, 2, 2, 0⟩, some [5, 6]⟩ [5, 6]).2 rfl⟩

/-- Claim C7: a write with `create_backup` to an existing destination
copies the original to the `.bak` sibling exactly when no `.bak` exists
yet (first conjunct, an if-and-only-if by case analysis on the backup's
presence), and no save to this destination ever changes an existing
`.bak` file's contents (second conjunct, for either value of
`create_backup` and any resource set). -/
theorem backup_preserved (deflate : List Nat → List Nat) (fs : String → Option (List Nat))
    (path : String) (resources : List WriterResource) (cb : Bool) (orig : List Nat)
    (hexists : fs path = some orig) :
    (write_package deflate fs path resources true (bakPath path)
      = if (fs (bakPath path)).isNone then some orig else fs (bakPath path))
    ∧ ∀ b, fs (bakPath path) = some b →
        write_package deflate fs path resources cb (bakPath path) = some b := by
  have hne : bakPath path ≠ path := by
    intro h
    have h2 := congrArg String.length h
    have h3 : (".bak" : String).length = 4 := rfl
    simp [bakPath] at h2
    omega
  constructor
  · by_cases hb : (fs (bakPath path)).isNone
    · simp [write_package, hne, hexists, hb]
    · simp [write_package, hne, hexists, hb]
  · intro b hbak
    have hb : ¬ (fs (bakPath path)).isNone := by simp [hbak]
    simp [write_package, hne, hb, hbak]

/-- Witness for C7: writing to an existing path `"a"` with no backup
present creates `"a.bak"` holding the original contents. -/
theorem backup_preserved_witness :
    write_package (fun l => l) (fun q => if q = "a" then some [1] else none) "a" [] true
        (bakPath "a") = some [1] := by
  have h := (backup_preserved (fun l => l) (fun q => if q = "a" then some [1] else none)
    "a" [] true [1] (by simp)).1
  rw [h]
  simp [bakPath]

/-- Helper for C6: the writer loop produces one entry per resource, its
final offset is the base plus the total encoded size, and each entry's
offset is the base plus the encoded sizes of the resources before it. -/
theorem writeLoop_spec (deflate : List Nat → List Nat) :
    ∀ (rs : List WriterResource) (co : Nat),
      ((writeLoop deflate rs co).1.1.length = rs.length)
      ∧ ((writeLoop deflate rs co).2
          = co + (rs.map (fun r => (encodeResource deflate r).1.length)).sum)
      ∧ ∀ k, k < rs.length →
          ((writeLoop deflate rs co).1.1.getD k ⟨0, 0, 0, 0, 0, 0, 0⟩).offset
            = co + ((rs.take k).map (fun r => (encodeResource deflate r).1.length)).sum
  | [], co => ⟨rfl, by simp [writeLoop], by intro k hk; simp at hk⟩
  | r :: rs, co => by
    obtain ⟨ih1, ih2, ih3⟩ := writeLoop_spec deflate rs (co + (encodeResource deflate r).1.length)
    refine ⟨?_, ?_, ?_⟩
    · simp [writeLoop, ih1]
    · simp only [writeLoop, List.map_cons, List.sum_cons]
      rw [ih2]
      ring
    · intro k hk
      cases k with
      | zero => simp [writeLoop]
      | succ k =>
        have hk' : k < rs.length := by simpa using hk
        simp only [writeLoop, List.getD_cons_succ]
        rw [ih3 k hk']
        simp only [List.take_succ_cons, List.map_cons, List.sum_cons]
        ring

/-- Claim C6: when writing `N` resources starting at the 96-byte header,
the `k`-th recorded offset equals 96 plus the sum of the compressed
(post-encoding) sizes of resources `0..k-1`, and the final offset — which
`write_package` passes to `_build_header` as `index_position` — equals 96
plus the sum of all `N` compressed sizes. -/
theorem writer_offsets (deflate : List Nat → List Nat) (resources : List WriterResource)
    (k : Nat) (hk : k < resources.length) :
    ((writeLoop deflate resources HEADER_SIZE).1.1.getD k ⟨0, 0, 0, 0, 0, 0, 0⟩).offset
      = 96 + ((resources.take k).map (fun r => (encodeResource deflate r).1.length)).sum
    ∧ (writeLoop deflate resources HEADER_SIZE).2
      = 96 + (resources.map (fun r => (encodeResource deflate r).1.length)).sum :=
  ⟨(writeLoop_spec deflate resources HEADER_SIZE).2.2 k hk,
   (writeLoop_spec deflate resources HEADER_SIZE).2.1⟩

/-- Witness for C6: two stored resources of sizes 3 and 1; the second
entry's offset is 99 and `index_position` is 100. -/
theorem writer_offsets_witness :
    1 < ([⟨1, 1, 1, [5, 5, 5], false⟩, ⟨2, 2, 2, [7], false⟩] : List WriterResource).length
    ∧ ((writeLoop (fun l => l) [⟨1, 1, 1, [5, 5, 5], false⟩, ⟨2, 2, 2, [7], false⟩]
        HEADER_SIZE).1.1.getD 1 ⟨0, 0, 0, 0, 0, 0, 0⟩).offset = 99
    ∧ (writeLoop (fun l => l) [⟨1, 1, 1, [5, 5, 5], false⟩, ⟨2, 2, 2, [7], false⟩]
        HEADER_SIZE).2 = 100 := by
  have h := writer_offsets (fun l => l) [⟨1, 1, 1, [5, 5, 5], false⟩, ⟨2, 2, 2, [7], false⟩]
    1 (by decide)
  exact ⟨by decide, by rw [h.1]; rfl, by rw [h.2]; rfl⟩

/-- Helper for C5: applying a session's mutation calls leaves the
committed handles unchanged, appends exactly the issued adds to the
pending list in call order, and the removed set's membership is exactly
the issued removes. -/
theorem applyOps_state : ∀ (ops : List PkgOp) (pkg : Package),
    ((applyOps pkg ops).resources = pkg.resources)
    ∧ ((applyOps pkg ops).pending_resources
        = pkg.pending_resources ++ (ops.map opAdds).flatten)
    ∧ (∀ x, x ∈ (applyOps pkg ops).removed_tgis ↔
        x ∈ pkg.removed_tgis ∨ x ∈ (ops.map opRemoves).flatten)
  | [], pkg => ⟨rfl, by simp [applyOps], by intro x; simp [applyOps]⟩
  | op :: ops, pkg => by
    obtain ⟨ih1, ih2, ih3⟩ := applyOps_state ops (applyOp pkg op)
    have happ : applyOps pkg (op :: ops) = applyOps (applyOp pkg op) ops := rfl
    refine ⟨?_, ?_, ?_⟩
    · rw [happ, ih1]
      cases op <;> rfl
    · rw [happ, ih2]
      cases op <;>
        simp [applyOp, add_resource, remove_resource, update_resource, opAdds]
    · intro x
      rw [happ, ih3 x]
      cases op <;>
        simp [applyOp, add_resource, remove_resource, update_resource, opRemoves] <;>
        tauto

/-- Helper for C5: when every handle extracts successfully, the `save()`
materialization loop returns exactly the non-removed handles in order,
each as a writer record with its extracted bytes and original compression
flag, alongside the updated handle list. -/
theorem collectSurviving_spec (inflate : List Nat → Except String (List Nat))
    (file : List Nat) (removed : List (Nat × Nat × Nat))
    (bytes : Resource → List Nat) (upd : Resource → Resource) :
    ∀ (rs : List Resource),
      (∀ r ∈ rs, Resource.extract inflate file r = .ok (bytes r, upd r)) →
      collectSurviving inflate file removed rs
        = .ok (((rs.filter (fun r => decide (resTGI r ∉ removed))).map
            (fun r => ⟨r.entry.type_id, r.entry.group_id, r.entry.instance_id,
              bytes r, r.entry.is_compressed⟩)),
           rs.map (fun r => if resTGI r ∈ removed then r else upd r))
  | [], _ => rfl
  | r :: rs, h => by
    have ih := collectSurviving_spec inflate file removed bytes upd rs
      (fun x hx => h x (List.mem_cons_of_mem _ hx))
    by_cases hm : resTGI r ∈ removed
    · simp only [collectSurviving, if_pos hm, ih]
      simp [hm]
    · have hx := h r (List.mem_cons_self r rs)
      simp only [collectSurviving, if_neg hm, hx, ih]
      simp [hm]

/-- Claim C5: starting from a freshly opened package (no pending adds, no
removes) and any session of add/remove/update calls, the resource list
`save()` hands to the writer is exactly the originally-read resources
whose TGI was not removed, in original index order, each materialized
with its re-extracted bytes and original compression flag, followed by
the session's adds in call order (first conjunct).  Consequently a TGI
removed and then re-added in the same session is written with the
re-added bytes (second conjunct). -/
theorem save_list_composition (inflate : List Nat → Except String (List Nat))
    (file : List Nat) (pkg : Package) (ops : List PkgOp)
    (bytes : Resource → List Nat) (upd : Resource → Resource)
    (hfp : pkg.pending_resources = []) (hfr : pkg.removed_tgis = [])
    (hok : ∀ r ∈ pkg.resources, Resource.extract inflate file r = .ok (bytes r, upd r)) :
    ((Package.saveList inflate file (applyOps pkg ops)).map Prod.fst
      = .ok (((pkg.resources.filter
            (fun r => decide (resTGI r ∉ (ops.map opRemoves).flatten))).map
            (fun r => ⟨r.entry.type_id, r.entry.group_id, r.entry.instance_id,
              bytes r, r.entry.is_compressed⟩))
          ++ (ops.map opAdds).flatten))
    ∧ (∀ t g i d c, ops = [PkgOp.remove t g i, PkgOp.add t g i d c] →
        (Package.saveList inflate file (applyOps pkg ops)).map Prod.fst
          = .ok (((pkg.resources.filter (fun r => decide (resTGI r ≠ (t, g, i)))).map
              (fun r => ⟨r.entry.type_id, r.entry.group_id, r.entry.instance_id,
                bytes r, r.entry.is_compressed⟩)) ++ [⟨t, g, i, d, c⟩])) := by
  have main : ∀ (ops2 : List PkgOp),
      (Package.saveList inflate file (applyOps pkg ops2)).map Prod.fst
        = .ok (((pkg.resources.filter
              (fun r => decide (resTGI r ∉ (ops2.map opRemoves).flatten))).map
              (fun r => ⟨r.entry.type_id, r.entry.group_id, r.entry.instance_id,
                bytes r, r.entry.is_compressed⟩))
            ++ (ops2.map opAdds).flatten) := by
    intro ops2
    obtain ⟨h1, h2, h3⟩ := applyOps_state ops2 pkg
    have hok2 : ∀ r ∈ (applyOps pkg ops2).resources,
        Resource.extract inflate file r = .ok (bytes r, upd r) := by
      rw [h1]; exact hok
    have hcol := collectSurviving_spec inflate file (applyOps pkg ops2).removed_tgis bytes upd
      (applyOps pkg ops2).resources hok2
    unfold Package.saveList
    rw [hcol]
    have hfilter : (applyOps pkg ops2).resources.filter
          (fun r => decide (resTGI r ∉ (applyOps pkg ops2).removed_tgis))
        = pkg.resources.filter (fun r => decide (resTGI r ∉ (ops2.map opRemoves).flatten)) := by
      rw [h1]
      refine List.filter_congr ?_
      intro x hx
      have := h3 (resTGI x)
      rw [hfr] at this
      simp only [List.not_mem_nil, false_or] at this
      exact decide_eq_decide.mpr (by tauto)
    rw [hfilter]
    simp [Except.map, h2, hfp]
  refine ⟨main ops, ?_⟩
  intro t g i d c hops
  subst hops
  rw [main [PkgOp.remove t g i, PkgOp.add t g i d c]]
  have hfl : (([PkgOp.remove t g i, PkgOp.add t g i d c].map opRemoves).flatten)
      = [(t, g, i)] := rfl
  have hfa : (([PkgOp.remove t g i, PkgOp.add t g i d c].map opAdds).flatten)
      = [⟨t, g, i, d, c⟩] := rfl
  rw [hfl, hfa]
  have hfilter2 : pkg.resources.filter (fun r => decide (resTGI r ∉ [(t, g, i)]))
      = pkg.resources.filter (fun r => decide (resTGI r ≠ (t, g, i))) := by
    refine List.filter_congr ?_
    intro x hx
    exact decide_eq_decide.mpr (by simp)
  rw [hfilter2]

/-- Witness for C5: one committed resource with TGI `(1, 2, 3)`, removed
and re-added with bytes `[9]` in the same session; the writer receives
exactly the re-added record. -/
theorem save_list_composition_witness :
    (Package.saveList (fun l => Except.ok l) [5, 6]
        (applyOps ⟨[⟨⟨1, 2, 3, 0, 2, 2, 0⟩, none⟩], [], [], false⟩
          [PkgOp.remove 1 2 3, PkgOp.add 1 2 3 [9] true])).map Prod.fst
      = .ok [⟨1, 2, 3, [9], true⟩] := by
  have h := (save_list_composition (fun l => Except.ok l) [5, 6]
      ⟨[⟨⟨1, 2, 3, 0, 2, 2, 0⟩, none⟩], [], [], false⟩
      [PkgOp.remove 1 2 3, PkgOp.add 1 2 3 [9] true]
      (fun _ => [5, 6]) (fun r => { r with cached_data := some [5, 6] })
      rfl rfl
      (by intro r hr; simp only [List.mem_singleton] at hr; subst hr; rfl)).2
    1 2 3 [9] true rfl
  rw [h]
  rfl

/-- Claim C10: when the disk write raises, `Package.save` propagates the
error and the in-memory mutation state survives untouched: the post-call
package differs from the pre-call one only in the handles' extract
caches, so the pending-addition list, the removed-TGI set and the
modified flag all retain their pre-save values. -/
theorem save_keeps_mutation_state_on_write_failure
    (inflate : List Nat → Except String (List Nat)) (file : List Nat)
    (writeResult : List WriterResource → Bool → Except String Unit)
    (pkg : Package) (lst : List WriterResource) (rs' : List Resource) (e : String)
    (hcol : Package.saveList inflate file pkg = .ok (lst, rs'))
    (hw : writeResult lst pkg.modified = .error e) :
    Package.save inflate file writeResult pkg = ({ pkg with resources := rs' }, some e)
    ∧ ({ pkg with resources := rs' } : Package).pending_resources = pkg.pending_resources
    ∧ ({ pkg with resources := rs' } : Package).removed_tgis = pkg.removed_tgis
    ∧ ({ pkg with resources := rs' } : Package).modified = pkg.modified := by
  unfold Package.save
  simp only [hcol]
  rw [hw]
  exact ⟨rfl, trivial, trivial, trivial⟩

/-- Witness for C10: a failing writer leaves a package with one pending
add, one removed TGI and the modified flag set exactly as it was. -/
theorem save_keeps_mutation_state_on_write_failure_witness :
    Package.save (fun l => Except.ok l) [] (fun _ _ => Except.error "disk")
        ⟨[], [⟨1, 1, 1, [2], false⟩], [(9, 9, 9)], true⟩
      = (⟨[], [⟨1, 1, 1, [2], false⟩], [(9, 9, 9)], true⟩, some "disk") :=
  (save_keeps_mutation_state_on_write_failure (fun l => Except.ok l) []
    (fun _ _ => Except.error "disk") ⟨[], [⟨1, 1, 1, [2], false⟩], [(9, 9, 9)], true⟩
    [⟨1, 1, 1, [2], false⟩] [] "disk" rfl rfl).1

end S4lt
